import Mathlib

/-!
# Verification of the rayca-pipe reflection-to-resource-model synthesizer

A shallow embedding of `src/model.rs` (and the binding-method emission guard of
`src/codegen.rs`): the semantic type mapper (`ParamType`), the parameter
classifier (`Shader::from(ShaderReflection)`), the binding deduplicator, and the
pipeline interface builder (`Pipeline` and its derived queries).

Rust panics/asserts are modelled as `Except ModelError` / `Option` failures.
`u32` values (set and binding indexes) are modelled as `Nat`: none of the
verified properties depend on 32-bit wraparound.
-/

deriving instance DecidableEq for Except

namespace RaycaPipe

/-- Errors: each corresponds to a `panic!`/`assert!` site in `model.rs`. -/
inductive ModelError
  | multipleEntryPoints
  | unsupportedStage
  | unsupportedType
  | unsupportedCategory
  | unsupportedSubCategory
  | emptyName
  | emptyShaders
deriving DecidableEq, Repr

/-- Model of `slang::Stage` (the reflection provider's stage enum); only the
constructors the code distinguishes, plus unsupported ones. -/
inductive Stage
  | vertex
  | fragment
  | geometry
  | compute
deriving DecidableEq, Repr

/-- Rust `ShaderType` from `model.rs`. -/
inductive ShaderType
  | Vertex
  | Fragment
deriving DecidableEq, Repr

/-- Model of `impl From<slang::Stage> for ShaderType` (model.rs:340-348); panics on any
stage other than Vertex/Fragment. -/
def ShaderType.ofStage : Stage → Except ModelError ShaderType
  | .vertex => .ok .Vertex
  | .fragment => .ok .Fragment
  | _ => .error .unsupportedStage

/-- A reflected type tree (`slang::ReflectionType` as queried by `model.rs`):
kind, element count, row/column counts, element type, fields. -/
inductive RType
  | vector (elementCount : Nat)
  | matrix (rowCount columnCount : Nat)
  | constantBuffer (element : RType)
  | resource
  | samplerState
  | structKind (fields : List RType)
  | unsupported

/-- Rust `ParamType` from `model.rs`. -/
inductive ParamType
  | Vec2
  | Vec3
  | Vec4
  | Mat3
  | Mat4
  | SampledImage
  | Image
  | Sampler
  | Struct (size : Nat)
deriving DecidableEq, Repr

mutual

/-- Model of `ParamType::get_type_size` (model.rs:405-449). Vectors contribute
`elementCount * 4` bytes (a 3-vector contributes 12, not 16); struct kinds sum
their fields' sizes with no rounding; unsupported shapes panic. -/
def ParamType.get_type_size : RType → Except ModelError Nat
  | .vector 2 => .ok (2 * 4)
  | .vector 3 => .ok (3 * 4)
  | .vector 4 => .ok (4 * 4)
  | .vector _ => .error .unsupportedType
  | .matrix 3 3 => .ok (3 * 3 * 4)
  | .matrix 4 4 => .ok (4 * 4 * 4)
  | .matrix _ _ => .error .unsupportedType
  | .constantBuffer element => ParamType.get_type_size element
  | .structKind fields => ParamType.get_field_size_sum fields
  | .resource => .error .unsupportedType
  | .samplerState => .error .unsupportedType
  | .unsupported => .error .unsupportedType

/-- The field loop of the `Struct` arm of `get_type_size` (model.rs:437-446):
`size += get_type_size(field)` over the fields in order. -/
def ParamType.get_field_size_sum : List RType → Except ModelError Nat
  | [] => .ok 0
  | f :: fs => do
    let s ← ParamType.get_type_size f
    let rest ← ParamType.get_field_size_sum fs
    .ok (s + rest)

end

/-- Model of `ParamType::from_type` (model.rs:451-493). Struct kinds get their summed
field size rounded up to the next multiple of 16. -/
def ParamType.from_type : RType → Except ModelError ParamType
  | .vector 2 => .ok .Vec2
  | .vector 3 => .ok .Vec3
  | .vector 4 => .ok .Vec4
  | .vector _ => .error .unsupportedType
  | .matrix 3 3 => .ok .Mat3
  | .matrix 4 4 => .ok .Mat4
  | .matrix _ _ => .error .unsupportedType
  | .constantBuffer element => ParamType.from_type element
  | .resource => .ok .SampledImage
  | .structKind fields => do
    let size ← ParamType.get_type_size (.structKind fields)
    .ok (.Struct ((size + 15) / 16 * 16))
  | .samplerState => .ok .SampledImage
  | .unsupported => .error .unsupportedType

/-- Model of `ParamType::get_size` (model.rs:495-510). Panics (`none`) for
`SampledImage`, `Image`, `Sampler` and for `Struct(0)`. -/
def ParamType.get_size : ParamType → Option Nat
  | .Vec2 => some (4 * 2)
  | .Vec3 => some (4 * 4)
  | .Vec4 => some (4 * 4)
  | .Mat3 => some (4 * 9)
  | .Mat4 => some (4 * 16)
  | .Struct size => if size = 0 then none else some size
  | _ => none

/-- Rust `DescriptorType` from `model.rs`. -/
inductive DescriptorType
  | Uniform
  | CombinedSampler
  | InputAttachment
deriving DecidableEq, Repr

/-- Model of `impl From<ParamType> for DescriptorType` (model.rs:520-528); total. -/
def DescriptorType.fromParam : ParamType → DescriptorType
  | .SampledImage => .CombinedSampler
  | .Image => .InputAttachment
  | _ => .Uniform

/-- Rust `Param` from `model.rs`. -/
structure Param where
  name : String
  ty : ParamType
deriving DecidableEq, Repr

/-- Rust `Uniform` from `model.rs`. -/
structure Uniform where
  param : Param
  set : Nat
  binding : Nat
  input_attachment_index : Nat
deriving DecidableEq, Repr

/-- Rust `SetLayoutBinding` from `model.rs`. -/
structure SetLayoutBinding where
  stage : ShaderType
  descriptor_type : DescriptorType
  binding : Nat
deriving DecidableEq, Repr

/-- Model of `Uniform::get_set_layout_binding` (model.rs:382-388). -/
def Uniform.get_set_layout_binding (u : Uniform) (stage : ShaderType) : SetLayoutBinding :=
  { stage := stage, descriptor_type := DescriptorType.fromParam u.param.ty, binding := u.binding }

/-- Whether a uniform's parameter type is `SampledImage` — the partition
predicate of the dedup pass (model.rs:254-261). -/
def Uniform.isSampler (u : Uniform) : Bool :=
  decide (u.param.ty = ParamType.SampledImage)

/-- The re-append loop of the dedup pass (model.rs:263-274): each sampler is
checked against the current `uniforms` list; colliding `(set, binding)` means
the sampler is dropped, otherwise it is pushed at the end. -/
def mergeSamplers (others : List Uniform) : List Uniform → List Uniform
  | [] => others
  | s :: rest =>
    if others.any (fun u => decide (u.set = s.set) && decide (u.binding = s.binding)) then
      mergeSamplers others rest
    else
      mergeSamplers (others ++ [s]) rest

/-- The ordering on uniforms used by `uniforms.sort_by_key(|u| u.binding)`
(model.rs:276). -/
def bindingLE (a b : Uniform) : Prop := a.binding ≤ b.binding

instance : DecidableRel bindingLE := fun a b => Nat.decLe a.binding b.binding

instance : IsTotal Uniform bindingLE := ⟨fun a b => Nat.le_total a.binding b.binding⟩

instance : IsTrans Uniform bindingLE := ⟨fun _ _ _ h h' => Nat.le_trans h h'⟩

/-- Model of `uniforms.sort_by_key(|uniform| uniform.binding)` (model.rs:276). Rust's
sort is stable; `List.insertionSort` is the stable sort on lists. -/
def sortUniforms (l : List Uniform) : List Uniform :=
  List.insertionSort bindingLE l

/-- The Binding Deduplicator (model.rs:252-276): partition out sampler-typed
uniforms, re-append those whose `(set, binding)` is not already occupied, then
stable-sort ascending by `binding`. -/
def dedupeUniforms (uniforms : List Uniform) : List Uniform :=
  sortUniforms
    (mergeSamplers (uniforms.filter (fun u => !u.isSampler))
      (uniforms.filter (fun u => u.isSampler)))

/-- Model of `slang::ParameterCategory`, restricted to the constructors `model.rs`
distinguishes, plus unsupported ones. -/
inductive Category
  | varyingInput
  | pushConstantBuffer
  | uniform
  | subpass
  | descriptorTableSlot
  | mixed
  | unsupported
deriving DecidableEq, Repr

/-- One reflected parameter (`slang` variable layout) as queried by
`model.rs`: name, reflected type, category, binding index/space, and the
sub-category queries used for `Mixed` parameters. -/
structure ParamLayout where
  name : String
  ty : RType
  category : Category
  bindingIndex : Nat
  bindingSpace : Nat
  subCategories : List Category
  offsets : Category → Nat
  spaces : Category → Nat

/-- One reflected entry point: its stage and its entry-point-scope
parameters. -/
structure EntryPoint where
  stage : Stage
  parameters : List ParamLayout

/-- Model of `ShaderReflection` (parse.rs): a path, the entry points, and the
program-scope parameters. -/
structure ShaderReflection where
  path : String
  entryPoints : List EntryPoint
  parameters : List ParamLayout

/-- The three buckets filled by the classifier loops of
`From<ShaderReflection> for Shader`. -/
structure ClassAcc where
  params : List Param
  uniforms : List Uniform
  constants : List Param
deriving DecidableEq, Repr

/-- State threaded through the `Mixed`-category sub-loop (model.rs:214-241). -/
structure MixedState where
  pty : ParamType
  set : Nat
  binding : Nat
  input_attachment_index : Nat
deriving DecidableEq, Repr

/-- The sub-category loop of the `Mixed` arm (model.rs:219-238). -/
def processSubCategories (p : ParamLayout) : List Category → MixedState → Except ModelError MixedState
  | [], st => .ok st
  | c :: cs, st =>
    match c with
    | .descriptorTableSlot =>
      processSubCategories p cs { st with binding := p.offsets c, set := p.spaces c }
    | .subpass =>
      processSubCategories p cs { st with pty := .Image, input_attachment_index := p.offsets c }
    | _ => .error .unsupportedSubCategory

/-- The entry-point-scope classification loop (model.rs:148-185). -/
def classifyEntryParams : List ParamLayout → ClassAcc → Except ModelError ClassAcc
  | [], acc => .ok acc
  | p :: ps, acc =>
    match ParamType.from_type p.ty with
    | .error e => .error e
    | .ok pty =>
      match p.category with
      | .varyingInput =>
        classifyEntryParams ps { acc with params := acc.params ++ [⟨p.name, pty⟩] }
      | .pushConstantBuffer =>
        classifyEntryParams ps { acc with constants := acc.constants ++ [⟨p.name, pty⟩] }
      | .uniform =>
        classifyEntryParams ps
          { acc with uniforms := acc.uniforms ++ [⟨⟨p.name, pty⟩, p.bindingSpace, p.bindingIndex, 0⟩] }
      | .subpass =>
        classifyEntryParams ps
          { acc with uniforms := acc.uniforms ++ [⟨⟨p.name, pty⟩, p.bindingSpace, p.bindingIndex, 0⟩] }
      | _ => .error .unsupportedCategory

/-- The program-scope classification loop (model.rs:187-250). -/
def classifyProgramParams : List ParamLayout → ClassAcc → Except ModelError ClassAcc
  | [], acc => .ok acc
  | p :: ps, acc =>
    match ParamType.from_type p.ty with
    | .error e => .error e
    | .ok pty =>
      match p.category with
      | .pushConstantBuffer =>
        classifyProgramParams ps { acc with constants := acc.constants ++ [⟨p.name, pty⟩] }
      | .descriptorTableSlot =>
        classifyProgramParams ps
          { acc with uniforms := acc.uniforms ++ [⟨⟨p.name, pty⟩, p.bindingSpace, p.bindingIndex, 0⟩] }
      | .uniform =>
        classifyProgramParams ps
          { acc with uniforms := acc.uniforms ++ [⟨⟨p.name, pty⟩, p.bindingSpace, p.bindingIndex, 0⟩] }
      | .mixed =>
        match processSubCategories p p.subCategories ⟨pty, 0, 0, 0⟩ with
        | .error e => .error e
        | .ok st =>
          classifyProgramParams ps
            { acc with uniforms := acc.uniforms ++ [⟨⟨p.name, st.pty⟩, st.set, st.binding, st.input_attachment_index⟩] }
      | _ => .error .unsupportedCategory

/-- Rust `Shader` from `model.rs`. -/
structure Shader where
  ty : ShaderType
  path : String
  params : List Param
  uniforms : List Uniform
  constants : List Param
deriving DecidableEq, Repr

/-- Model of `impl From<ShaderReflection> for Shader` (model.rs:134-278): asserts
exactly one entry point, maps its stage, classifies both parameter scopes,
deduplicates and sorts the uniforms. -/
def Shader.fromReflection (r : ShaderReflection) : Except ModelError Shader :=
  match r.entryPoints with
  | [e] =>
    match ShaderType.ofStage e.stage with
    | .error er => .error er
    | .ok ty =>
      match classifyEntryParams e.parameters ⟨[], [], []⟩ with
      | .error er => .error er
      | .ok acc1 =>
        match classifyProgramParams r.parameters acc1 with
        | .error er => .error er
        | .ok acc2 => .ok ⟨ty, r.path, acc2.params, dedupeUniforms acc2.uniforms, acc2.constants⟩
  | _ => .error .multipleEntryPoints

/-- Model of `Shader::get_set_layout_bindings` (model.rs:308-316). -/
def Shader.get_set_layout_bindings (s : Shader) (set : Nat) : List SetLayoutBinding :=
  (s.uniforms.filter (fun u => decide (u.set = set))).map
    (fun u => u.get_set_layout_binding s.ty)

/-- Model of `Shader::get_descriptor_max` (model.rs:318-324). -/
def Shader.get_descriptor_max (s : Shader) : Nat :=
  s.uniforms.foldl (fun m u => max m u.set) 0

/-- Rust `BindMethod` from `model.rs`. -/
structure BindMethod where
  uniforms : List Uniform
deriving DecidableEq, Repr

/-- One step of `Shader::get_bind_methods` (model.rs:326-331):
`methods[uniform.set as usize].uniforms.push(uniform.clone())`; out-of-bounds
indexing is a panic (`none`). -/
def bindMethodPush (methods : List BindMethod) (u : Uniform) : Option (List BindMethod) :=
  if h : u.set < methods.length then
    some (methods.set u.set ⟨(methods.get ⟨u.set, h⟩).uniforms ++ [u]⟩)
  else none

/-- The loop of `Shader::get_bind_methods` over a shader's uniforms. -/
def fillBindMethods : List Uniform → List BindMethod → Option (List BindMethod)
  | [], methods => some methods
  | u :: us, methods =>
    match bindMethodPush methods u with
    | none => none
    | some methods' => fillBindMethods us methods'

/-- Rust `Pipeline` from `model.rs`. -/
structure Pipeline where
  name : String
  shaders : List Shader
deriving DecidableEq, Repr

/-- The conversion loop of `Pipeline::new` (model.rs:123-125): each reflection
is converted with `Shader::from` in order; the first panic aborts. -/
def mapShaders : List ShaderReflection → Except ModelError (List Shader)
  | [] => .ok []
  | r :: rs =>
    match Shader.fromReflection r with
    | .error e => .error e
    | .ok s =>
      match mapShaders rs with
      | .error e => .error e
      | .ok ss => .ok (s :: ss)

/-- Model of `Pipeline::new` (model.rs:119-131): asserts the reflection list non-empty
and converts each reflection with `Shader::from`. -/
def Pipeline.new (name : String) (reflections : List ShaderReflection) : Except ModelError Pipeline :=
  match reflections with
  | [] => .error .emptyShaders
  | _ =>
    match mapShaders reflections with
    | .error e => .error e
    | .ok shaders => .ok ⟨name, shaders⟩

/-- Rust `PipelineBuilder` from `model.rs` (shaders are pushed by `vert`/`frag`). -/
structure PipelineBuilder where
  name : String
  shaders : List ShaderReflection

/-- Model of `PipelineBuilder::build` (model.rs:31-35): asserts the name and the shader
list non-empty, then delegates to `Pipeline::new`. -/
def PipelineBuilder.build (b : PipelineBuilder) : Except ModelError Pipeline :=
  if b.name = "" then .error .emptyName
  else if b.shaders.isEmpty then .error .emptyShaders
  else Pipeline.new b.name b.shaders

/-- Rust `SetLayout` from `model.rs`. -/
structure SetLayout where
  bindings : List SetLayoutBinding
deriving DecidableEq, Repr

/-- Model of `Pipeline::get_set_layout_bindings` (model.rs:68-75): indexes
`shaders[0]` and `shaders[1]` unconditionally (panic when absent), then
concatenates their matching bindings with no re-sort. -/
def Pipeline.get_set_layout_bindings (p : Pipeline) (set : Nat) : Option (List SetLayoutBinding) :=
  match p.shaders with
  | vert :: frag :: _ =>
    some (vert.get_set_layout_bindings set ++ frag.get_set_layout_bindings set)
  | _ => none

/-- Model of `Pipeline::get_set_layouts` (model.rs:49-66). -/
def Pipeline.get_set_layouts (p : Pipeline) : Option (List SetLayout) :=
  match p.shaders with
  | vert :: frag :: _ =>
    if vert.uniforms = [] ∧ frag.uniforms = [] then some []
    else
      some ((List.range (max vert.get_descriptor_max frag.get_descriptor_max + 1)).map
        (fun set => ⟨vert.get_set_layout_bindings set ++ frag.get_set_layout_bindings set⟩))
  | _ => none

/-- Model of `Pipeline::get_bind_methods` (model.rs:77-94). -/
def Pipeline.get_bind_methods (p : Pipeline) : Option (List BindMethod) :=
  match p.shaders with
  | vert :: frag :: _ =>
    if vert.uniforms = [] ∧ frag.uniforms = [] then some []
    else
      match fillBindMethods vert.uniforms
        (List.replicate (max vert.get_descriptor_max frag.get_descriptor_max + 1) ⟨[]⟩) with
      | none => none
      | some methods => fillBindMethods frag.uniforms methods
  | _ => none

/-- Rust `PushRange` from `model.rs`. -/
structure PushRange where
  ty : ParamType
  stage : ShaderType
deriving DecidableEq, Repr

/-- Rust `PushMethod` from `model.rs`. -/
structure PushMethod where
  name : String
  ty : ParamType
  stage : ShaderType
deriving DecidableEq, Repr

/-- Model of `Pipeline::get_push_ranges` (model.rs:96-105): `shaders[0]`'s constants
are tagged `Vertex` and `shaders[1]`'s `Fragment`, whatever their actual
stages; shaders past index 1 are ignored. -/
def Pipeline.get_push_ranges (p : Pipeline) : Option (List PushRange) :=
  match p.shaders with
  | s0 :: s1 :: _ =>
    some (s0.constants.map (fun c => ⟨c.ty, .Vertex⟩) ++
      s1.constants.map (fun c => ⟨c.ty, .Fragment⟩))
  | _ => none

/-- Model of `Pipeline::get_push_methods` (model.rs:107-117): iterates every shader and
uses its actual stage. -/
def Pipeline.get_push_methods (p : Pipeline) : List PushMethod :=
  p.shaders.flatMap (fun s => s.constants.map (fun c => ⟨c.name, c.ty, s.ty⟩))

/-- Rust `MethodParam` from `model.rs`. -/
structure MethodParam where
  name : String
  ty : ParamType
deriving DecidableEq, Repr

/-- Rust `WriteSetInfo` from `model.rs`. -/
structure WriteSetInfo where
  name : String
  ty : ParamType
deriving DecidableEq, Repr

/-- Rust `WriteSet` from `model.rs`. -/
structure WriteSet where
  binding : Nat
  descriptor_type : DescriptorType
  info : WriteSetInfo
deriving DecidableEq, Repr

/-- Model of `BindMethod::get_method_params` (model.rs:553-562). -/
def BindMethod.get_method_params (m : BindMethod) : List MethodParam :=
  m.uniforms.map (fun u => ⟨u.param.name, u.param.ty⟩)

/-- Model of `BindMethod::get_write_sets` (model.rs:564-577). -/
def BindMethod.get_write_sets (m : BindMethod) : List WriteSet :=
  m.uniforms.map (fun u =>
    ⟨u.binding, DescriptorType.fromParam u.param.ty, ⟨u.param.name, u.param.ty⟩⟩)

/-- The data interpolated into the generated bind method. -/
structure BindMethodCode where
  signature : String
  set : Nat
  method_params : List MethodParam
  write_sets : List WriteSet
deriving DecidableEq, Repr

/-- Model of `impl ToTokens for BindMethod` (codegen.rs:318-369), up to its panic guard:
a bind method with zero uniforms panics (`none`); otherwise the emitted method
is driven by the joined name, the set of the first uniform, the method
parameters and the write sets. The surrounding token templating is mechanical
and not modelled. -/
def BindMethod.to_tokens (m : BindMethod) : Option BindMethodCode :=
  let joined := String.intercalate ("_and_") (m.uniforms.map (fun u => u.param.name))
  match m.uniforms with
  | [] => none
  | u :: _ => some ⟨"bind_" ++ joined, u.set, m.get_method_params, m.get_write_sets⟩

/-! ### Spec-side definitions

Definitions in this block follow the wording of the specification (not the
source); they exist to be compared against the source-derived definitions
above. -/

mutual

/-- Spec wording of claim C1 and spec section 4.1: struct byte size is the sum
of the fields' sizes where each vector field contributes its PADDED size (a
3-vector contributes 16 bytes); all other shapes are sized as the code sizes
them. -/
def specPaddedSize : RType → Option Nat
  | .vector 2 => some 8
  | .vector 3 => some 16
  | .vector 4 => some 16
  | .matrix 3 3 => some 36
  | .matrix 4 4 => some 64
  | .constantBuffer element => specPaddedSize element
  | .structKind fields => specPaddedFieldSum fields
  | _ => none

/-- Sum of `specPaddedSize` over a struct's fields, per the spec wording. -/
def specPaddedFieldSum : List RType → Option Nat
  | [] => some 0
  | f :: fs => do
    let s ← specPaddedSize f
    let rest ← specPaddedFieldSum fs
    some (s + rest)

end

mutual

/-- Amended wording of claim C1: struct byte size is the sum of the fields'
sizes where each vector field contributes its UNPADDED size (a 2-vector 8
bytes, a 3-vector 12 bytes, a 4-vector 16 bytes), matrices 36/64 bytes,
constant buffers their element's size, and nested structs their unrounded
field sum. -/
def specTightSize : RType → Option Nat
  | .vector 2 => some 8
  | .vector 3 => some 12
  | .vector 4 => some 16
  | .matrix 3 3 => some 36
  | .matrix 4 4 => some 64
  | .constantBuffer element => specTightSize element
  | .structKind fields => specTightFieldSum fields
  | _ => none

/-- Sum of `specTightSize` over a struct's fields. -/
def specTightFieldSum : List RType → Option Nat
  | [] => some 0
  | f :: fs => do
    let s ← specTightSize f
    let rest ← specTightFieldSum fs
    some (s + rest)

end

/-- Ascending-by-binding order on set layout bindings (spec: a set layout's
bindings are ordered ascending by `binding`). -/
def slbLE (a b : SetLayoutBinding) : Prop := a.binding ≤ b.binding

instance : DecidableRel slbLE := fun a b => Nat.decLe a.binding b.binding

/-- Two resource bindings occupy the same `(set, binding)` coordinates. -/
def collides (a b : Uniform) : Prop := a.set = b.set ∧ a.binding = b.binding

instance : ∀ a b, Decidable (collides a b) := fun a b => by
  unfold collides; infer_instance

/-- Invariant established by the dedup pass: whenever one of the two uniforms
is sampler-typed, the pair does not collide. -/
def samplerSafe (a b : Uniform) : Prop := a.isSampler = true ∨ b.isSampler = true → ¬collides a b

/-! ### Concrete inputs used to settle the claims -/

/-- Trivial sub-category offset/space query (unused by non-Mixed params). -/
def noOff : Category → Nat := fun _ => 0

/-- A 4x4-matrix uniform at set 0, binding 2 (entry scope). -/
def plV2 : ParamLayout := ⟨"model_a", .matrix 4 4, .uniform, 2, 0, [], noOff, noOff⟩

/-- A 4x4-matrix uniform at set 0, binding 1 (entry scope). -/
def plF2 : ParamLayout := ⟨"model_b", .matrix 4 4, .uniform, 1, 0, [], noOff, noOff⟩

/-- A vertex reflection unit declaring only `plV2`. -/
def rV2 : ShaderReflection := ⟨"simple.vert", [⟨.vertex, [plV2]⟩], []⟩

/-- A fragment reflection unit declaring only `plF2`. -/
def rF2 : ShaderReflection := ⟨"simple.frag", [⟨.fragment, [plF2]⟩], []⟩

/-- The shader produced from `rV2`. -/
def shV2 : Shader := ⟨.Vertex, "simple.vert", [], [⟨⟨"model_a", .Mat4⟩, 0, 2, 0⟩], []⟩

/-- The shader produced from `rF2`. -/
def shF2 : Shader := ⟨.Fragment, "simple.frag", [], [⟨⟨"model_b", .Mat4⟩, 0, 1, 0⟩], []⟩

/-- The pipeline produced from `rV2` and `rF2`. -/
def pEx2 : Pipeline := ⟨"Pipe2", [shV2, shF2]⟩

/-- A 4x4-matrix uniform at set 1, binding 0 (program scope): set 0 is left
as a gap set. -/
def plV3 : ParamLayout := ⟨"ubo", .matrix 4 4, .uniform, 0, 1, [], noOff, noOff⟩

/-- A vertex reflection unit whose only uniform lives at set 1. -/
def rV3 : ShaderReflection := ⟨"gap.vert", [⟨.vertex, []⟩], [plV3]⟩

/-- A fragment reflection unit with no parameters at all. -/
def rF3 : ShaderReflection := ⟨"gap.frag", [⟨.fragment, []⟩], []⟩

/-- The single uniform of `rV3`. -/
def u3 : Uniform := ⟨⟨"ubo", .Mat4⟩, 1, 0, 0⟩

/-- The shader produced from `rV3`. -/
def shV3 : Shader := ⟨.Vertex, "gap.vert", [], [u3], []⟩

/-- The shader produced from `rF3`. -/
def shF3 : Shader := ⟨.Fragment, "gap.frag", [], [], []⟩

/-- The pipeline with a gap at set 0. -/
def p3Ex : Pipeline := ⟨"Pipe3", [shV3, shF3]⟩

/-- Set layouts of `p3Ex`: set 0 appears with an empty bindings list. -/
def L3 : List SetLayout := [⟨[]⟩, ⟨[⟨.Vertex, .Uniform, 0⟩]⟩]

/-- Bind methods of `p3Ex`: set 0 appears with an empty uniforms list. -/
def M3 : List BindMethod := [⟨[]⟩, ⟨[u3]⟩]

/-- A push-constant parameter (fragment shader). -/
def plF4 : ParamLayout := ⟨"pc_color", .vector 4, .pushConstantBuffer, 0, 0, [], noOff, noOff⟩

/-- A fragment reflection unit with one push constant. -/
def rF4a : ShaderReflection := ⟨"a.frag", [⟨.fragment, [plF4]⟩], []⟩

/-- A second fragment reflection unit, empty. -/
def rF4b : ShaderReflection := ⟨"b.frag", [⟨.fragment, []⟩], []⟩

/-- A pipeline whose FIRST shader is fragment-stage (the builder accepts any
stage order): produced from `rF4a` and `rF4b`. -/
def p4Ex : Pipeline :=
  ⟨"Pipe4", [⟨.Fragment, "a.frag", [], [], [⟨"pc_color", .Vec4⟩]⟩,
    ⟨.Fragment, "b.frag", [], [], []⟩]⟩

/-- A vertex-stage shader with one push constant. -/
def sh5V : Shader := ⟨.Vertex, "c.vert", [], [], [⟨"vpc", .Vec4⟩]⟩

/-- A fragment-stage shader with one push constant. -/
def sh5F : Shader := ⟨.Fragment, "c.frag", [], [], [⟨"fpc", .Vec2⟩]⟩

/-- A well-formed two-stage pipeline (vertex first, fragment second). -/
def p5Ex : Pipeline := ⟨"Pipe5", [sh5V, sh5F]⟩

/-- A non-sampler binding at coordinates (0, 1) — spec section 8 example. -/
def uVec4 : Uniform := ⟨⟨"color", .Vec4⟩, 0, 1, 0⟩

/-- A sampler binding colliding with `uVec4` at (0, 1). -/
def uSamp : Uniform := ⟨⟨"tex_a", .SampledImage⟩, 0, 1, 0⟩

/-- A sampler binding at (0, 2), colliding with nothing. -/
def uSampFree : Uniform := ⟨⟨"tex_b", .SampledImage⟩, 0, 2, 0⟩

/-- First of two distinct bindings sharing binding index 1. -/
def uTieA : Uniform := ⟨⟨"tie_a", .Vec4⟩, 0, 1, 0⟩

/-- Second of two distinct bindings sharing binding index 1. -/
def uTieB : Uniform := ⟨⟨"tie_b", .Vec4⟩, 0, 1, 0⟩

/-- A binding at binding index 2, distinct from `uDistinctB`. -/
def uDistinctA : Uniform := ⟨⟨"da", .Vec4⟩, 0, 2, 0⟩

/-- A binding at binding index 1, distinct from `uDistinctA`. -/
def uDistinctB : Uniform := ⟨⟨"db", .Vec4⟩, 0, 1, 0⟩

/-- A reflection unit with zero entry points. -/
def r9zero : ShaderReflection := ⟨"zero.slang", [], []⟩

/-- A reflection unit with exactly one (fragment) entry point. -/
def r9one : ShaderReflection := ⟨"one.frag", [⟨.fragment, []⟩], []⟩

/-- The shader produced from `r9one`. -/
def sh9 : Shader := ⟨.Fragment, "one.frag", [], [], []⟩

/-- A pipeline with a single shader stage. -/
def p10Ex : Pipeline := ⟨"Mono", [sh5V]⟩

/-- A builder holding a single reflection unit and a non-empty name. -/
def b10Ex : PipelineBuilder := ⟨"Mono", [r9one]⟩

/-- Lift an optional size to the failure monad of the code-side functions. -/
def optToExcept (o : Option Nat) : Except ModelError Nat :=
  match o with
  | some n => .ok n
  | none => .error .unsupportedType

/-! ## Theorems -/

mutual

/-- Bridge: the code's reflected-type size function agrees with the spec-worded
tight (unpadded) size on every reflected type. -/
theorem get_type_size_eq_spec : ∀ t : RType, ParamType.get_type_size t = optToExcept (specTightSize t)
  | .vector n => by
    match n with
    | 0 => rfl
    | 1 => rfl
    | 2 => rfl
    | 3 => rfl
    | 4 => rfl
    | _ + 5 => rfl
  | .matrix r c => by
    match r, c with
    | 0, _ => rfl
    | 1, _ => rfl
    | 2, _ => rfl
    | 3, 0 => rfl
    | 3, 1 => rfl
    | 3, 2 => rfl
    | 3, 3 => rfl
    | 3, _ + 4 => rfl
    | 4, 0 => rfl
    | 4, 1 => rfl
    | 4, 2 => rfl
    | 4, 3 => rfl
    | 4, 4 => rfl
    | 4, _ + 5 => rfl
    | _ + 5, _ => rfl
  | .constantBuffer e => by
    have ih := get_type_size_eq_spec e
    simp [ParamType.get_type_size, specTightSize, ih]
  | .structKind fields => by
    have ih := get_field_size_sum_eq_spec fields
    simp [ParamType.get_type_size, specTightSize, ih]
  | .resource => rfl
  | .samplerState => rfl
  | .unsupported => rfl

/-- Bridge: the code's struct-field size loop agrees with the spec-worded tight
field sum on every field list. -/
theorem get_field_size_sum_eq_spec : ∀ fs : List RType, ParamType.get_field_size_sum fs = optToExcept (specTightFieldSum fs)
  | [] => rfl
  | f :: fs => by
    have ih1 := get_type_size_eq_spec f
    have ih2 := get_field_size_sum_eq_spec fs
    simp [ParamType.get_field_size_sum, specTightFieldSum, ih1, ih2]
    cases specTightSize f with
    | none => rfl
    | some a =>
      cases specTightFieldSum fs with
      | none => rfl
      | some b => rfl

end

/-- Claim C1 counterexample: for the struct with fields
`[Vec3, Vec3, Vec2]`, the claim's padded-size rule predicts
`ceil(40 / 16) * 16 = 48` bytes, but the code computes the tight sum
`12 + 12 + 8 = 32` (already a multiple of 16) and returns `Struct(32)`,
not `Struct(48)`. -/
theorem C1_counterexample :
    specPaddedFieldSum [.vector 3, .vector 3, .vector 2] = some 40 ∧
    (40 + 15) / 16 * 16 = 48 ∧
    ParamType.from_type (.structKind [.vector 3, .vector 3, .vector 2]) = .ok (.Struct 32) ∧
    ParamType.Struct 32 ≠ ParamType.Struct 48 :=
  ⟨by decide, by decide, by decide, by decide⟩

/-- Claim C1 (amended): for every struct-kind reflected type, the mapper sums
the fields' sizes with each vector field contributing its UNPADDED size (a
3-vector contributes 12 bytes, not 16), rounds the total up to the next
multiple of 16, and returns `Struct(paddedSize)`. -/
theorem C1_amended (fields : List RType) (s : Nat) (h : specTightFieldSum fields = some s) :
    ParamType.from_type (.structKind fields) = .ok (.Struct ((s + 15) / 16 * 16)) := by
  have hb := get_field_size_sum_eq_spec fields
  rw [h] at hb
  simp [ParamType.from_type, ParamType.get_type_size, hb, optToExcept]
  rfl

/-- Witness for C1: a struct with a single `Vec2` field (8 bytes) maps to
`Struct(16)` — the spec's own worked example. -/
theorem C1_witness : ParamType.from_type (.structKind [.vector 2]) = .ok (.Struct 16) :=
  C1_amended [.vector 2] 8 (by decide)

/-- Claim C4 counterexample: a pipeline whose two shaders are both
fragment-stage (the builder accepts any stage order; its own tests pass
fragment sources as the first shader). `pushRanges()` hardcodes the Vertex
stage for the first shader's field while `pushOperations()` reports its true
Fragment stage, so the two do not report the same owning stage. -/
theorem C4_counterexample :
    Pipeline.new ("Pipe4") [rF4a, rF4b] = .ok p4Ex ∧
    p4Ex.get_push_ranges = some [⟨.Vec4, .Vertex⟩] ∧
    p4Ex.get_push_methods = [⟨"pc_color", .Vec4, .Fragment⟩] ∧
    ShaderType.Vertex ≠ ShaderType.Fragment :=
  ⟨by decide, by decide, by decide, by decide⟩

/-- Claim C4 (amended): for every pipeline whose shader list is exactly a
Vertex-stage shader followed by a Fragment-stage shader, `pushRanges()` and
`pushOperations()` enumerate the same push-constant fields in the same order
with the same type and the same owning stage (the operations additionally
carrying the field names). -/
theorem C4_amended (p : Pipeline) (s0 s1 : Shader)
    (h : p.shaders = [s0, s1]) (h0 : s0.ty = .Vertex) (h1 : s1.ty = .Fragment) :
    p.get_push_ranges = some ((p.get_push_methods).map (fun m => PushRange.mk m.ty m.stage)) := by
  simp [Pipeline.get_push_ranges, Pipeline.get_push_methods, h, h0, h1, List.map_map]
  rfl

/-- Witness for C4: the well-formed two-stage pipeline `p5Ex`. -/
theorem C4_witness :
    p5Ex.get_push_ranges = some ((p5Ex.get_push_methods).map (fun m => PushRange.mk m.ty m.stage)) :=
  C4_amended p5Ex sh5V sh5F (by decide) (by decide) (by decide)

/-- Claim C6: a sampler-typed binding colliding at `(0,1)` with a `Vec4`
binding is discarded — the result has exactly the `Vec4` binding at `(0,1)` —
while a sampler at fresh coordinates `(0,2)` is kept. -/
theorem C6_sampler_merge :
    dedupeUniforms [uVec4, uSamp] = [uVec4] ∧
    dedupeUniforms [uVec4, uSampFree] = [uVec4, uSampFree] :=
  ⟨by decide, by decide⟩

/-- Claim C8 counterexample: the size query is NOT defined for every variant
other than `Struct` — it fails (panics) on `SampledImage`. -/
theorem C8_counterexample : ParamType.get_size ParamType.SampledImage = none :=
  rfl

/-- Claim C8 (amended): the size query returns a fixed byte count for the data
variants — `Vec2` 8, `Vec3` 16 (padded, while the semantic type stays `Vec3`),
`Vec4` 16, `Mat3` 36, `Mat4` 64, and `Struct s` its carried size when
non-zero — and fails for `SampledImage`, `Image`, `Sampler` and `Struct 0`. -/
theorem C8_amended :
    ParamType.get_size .Vec2 = some 8 ∧
    ParamType.get_size .Vec3 = some 16 ∧
    ParamType.get_size .Vec4 = some 16 ∧
    ParamType.get_size .Mat3 = some 36 ∧
    ParamType.get_size .Mat4 = some 64 ∧
    (∀ s : Nat, s ≠ 0 → ParamType.get_size (.Struct s) = some s) ∧
    ParamType.get_size (.Struct 0) = none ∧
    ParamType.get_size .SampledImage = none ∧
    ParamType.get_size .Image = none ∧
    ParamType.get_size .Sampler = none :=
  ⟨rfl, rfl, rfl, rfl, rfl, fun _ hs => by simp [ParamType.get_size, hs], rfl, rfl, rfl, rfl⟩

/-- Witness for C8: a 64-byte struct's size query returns 64. -/
theorem C8_witness : ParamType.get_size (.Struct 64) = some 64 :=
  C8_amended.2.2.2.2.2.1 64 (by decide)

/-- The type mapper's only failure is `unsupportedType`. -/
theorem from_type_error_eq : ∀ (t : RType) (e : ModelError),
    ParamType.from_type t = .error e → e = .unsupportedType
  | .vector n, e, h => by
    match n, h with
    | 0, h => exact (Except.error.inj h).symm
    | 1, h => exact (Except.error.inj h).symm
    | 2, h => exact Except.noConfusion h
    | 3, h => exact Except.noConfusion h
    | 4, h => exact Except.noConfusion h
    | _ + 5, h => exact (Except.error.inj h).symm
  | .matrix r c, e, h => by
    match r, c, h with
    | 0, _, h => exact (Except.error.inj h).symm
    | 1, _, h => exact (Except.error.inj h).symm
    | 2, _, h => exact (Except.error.inj h).symm
    | 3, 0, h => exact (Except.error.inj h).symm
    | 3, 1, h => exact (Except.error.inj h).symm
    | 3, 2, h => exact (Except.error.inj h).symm
    | 3, 3, h => exact Except.noConfusion h
    | 3, _ + 4, h => exact (Except.error.inj h).symm
    | 4, 0, h => exact (Except.error.inj h).symm
    | 4, 1, h => exact (Except.error.inj h).symm
    | 4, 2, h => exact (Except.error.inj h).symm
    | 4, 3, h => exact (Except.error.inj h).symm
    | 4, 4, h => exact Except.noConfusion h
    | 4, _ + 5, h => exact (Except.error.inj h).symm
    | _ + 5, _, h => exact (Except.error.inj h).symm
  | .constantBuffer t, e, h => from_type_error_eq t e h
  | .structKind fields, e, h => by
    have h' : Except.bind (ParamType.get_field_size_sum fields)
        (fun size => Except.ok (ParamType.Struct ((size + 15) / 16 * 16))) = Except.error e := h
    rw [get_field_size_sum_eq_spec fields] at h'
    cases hs : specTightFieldSum fields with
    | none =>
      rw [hs] at h'
      exact (Except.error.inj h').symm
    | some s =>
      rw [hs] at h'
      exact Except.noConfusion h'
  | .resource, e, h => Except.noConfusion h
  | .samplerState, e, h => Except.noConfusion h
  | .unsupported, e, h => (Except.error.inj h).symm

/-- The `Mixed` sub-category loop's only failure is `unsupportedSubCategory`. -/
theorem processSubCategories_error_eq (p : ParamLayout) : ∀ (cs : List Category) (st : MixedState)
    (e : ModelError), processSubCategories p cs st = .error e → e = .unsupportedSubCategory
  | [], _, _, h => Except.noConfusion h
  | c :: cs, st, e, h => by
    match c, h with
    | .descriptorTableSlot, h => exact processSubCategories_error_eq p cs _ e h
    | .subpass, h => exact processSubCategories_error_eq p cs _ e h
    | .varyingInput, h => exact (Except.error.inj h).symm
    | .pushConstantBuffer, h => exact (Except.error.inj h).symm
    | .uniform, h => exact (Except.error.inj h).symm
    | .mixed, h => exact (Except.error.inj h).symm
    | .unsupported, h => exact (Except.error.inj h).symm

/-- The stage mapper's only failure is `unsupportedStage`. -/
theorem ofStage_error_eq : ∀ (st : Stage) (e : ModelError),
    ShaderType.ofStage st = .error e → e = .unsupportedStage
  | .vertex, _, h => Except.noConfusion h
  | .fragment, _, h => Except.noConfusion h
  | .geometry, _, h => (Except.error.inj h).symm
  | .compute, _, h => (Except.error.inj h).symm

/-- The entry-scope classifier never fails with `multipleEntryPoints`. -/
theorem classifyEntryParams_ne_mep : ∀ (ps : List ParamLayout) (acc : ClassAcc),
    classifyEntryParams ps acc ≠ .error .multipleEntryPoints
  | [], _, h => Except.noConfusion h
  | p :: ps, acc, h => by
    rw [classifyEntryParams] at h
    split at h
    next e heq =>
      exact absurd ((from_type_error_eq p.ty e heq).symm.trans (Except.error.inj h)) (by decide)
    next pty heq =>
      split at h
      · exact classifyEntryParams_ne_mep ps _ h
      · exact classifyEntryParams_ne_mep ps _ h
      · exact classifyEntryParams_ne_mep ps _ h
      · exact classifyEntryParams_ne_mep ps _ h
      · exact absurd (Except.error.inj h) (by decide)

/-- The program-scope classifier never fails with `multipleEntryPoints`. -/
theorem classifyProgramParams_ne_mep : ∀ (ps : List ParamLayout) (acc : ClassAcc),
    classifyProgramParams ps acc ≠ .error .multipleEntryPoints
  | [], _, h => Except.noConfusion h
  | p :: ps, acc, h => by
    rw [classifyProgramParams] at h
    split at h
    next e heq =>
      exact absurd ((from_type_error_eq p.ty e heq).symm.trans (Except.error.inj h)) (by decide)
    next pty heq =>
      split at h
      · exact classifyProgramParams_ne_mep ps _ h
      · exact classifyProgramParams_ne_mep ps _ h
      · exact classifyProgramParams_ne_mep ps _ h
      · split at h
        next e2 heq2 =>
          exact absurd
            ((processSubCategories_error_eq p _ _ e2 heq2).symm.trans (Except.error.inj h))
            (by decide)
        next st heq2 => exact classifyProgramParams_ne_mep ps _ h
      · exact absurd (Except.error.inj h) (by decide)

/-- Claim C9: classifying one reflection unit fails with `multipleEntryPoints`
exactly when the unit exposes other than exactly one entry point; with exactly
one entry point, the classification proceeds using that entry point's stage
(the produced shader's stage is the mapped stage of that entry point). -/
theorem C9_entry_point_gate (r : ShaderReflection) :
    (Shader.fromReflection r = .error .multipleEntryPoints ↔ r.entryPoints.length ≠ 1) ∧
    (∀ e : EntryPoint, r.entryPoints = [e] → ∀ s : Shader,
      Shader.fromReflection r = .ok s → ShaderType.ofStage e.stage = .ok s.ty) := by
  obtain ⟨path, eps, params⟩ := r
  match eps with
  | [] =>
    refine ⟨⟨fun _ => by simp, fun _ => rfl⟩, fun e he => ?_⟩
    cases he
  | [e] =>
    constructor
    · constructor
      · intro h
        simp only [Shader.fromReflection] at h
        split at h
        next er heq =>
          exact absurd ((ofStage_error_eq _ _ heq).symm.trans (Except.error.inj h)) (by decide)
        next ty heq =>
          split at h
          next er heq2 =>
            rw [Except.error.inj h] at heq2
            exact absurd heq2 (classifyEntryParams_ne_mep _ _)
          next acc1 heq2 =>
            split at h
            next er heq3 =>
              rw [Except.error.inj h] at heq3
              exact absurd heq3 (classifyProgramParams_ne_mep _ _)
            next acc2 heq3 => exact Except.noConfusion h
      · intro hlen
        exact absurd rfl hlen
    · intro e' he' s hs
      have he2 : e = e' := (List.cons.inj he').1
      subst he2
      simp only [Shader.fromReflection] at hs
      split at hs
      next er heq => exact Except.noConfusion hs
      next ty heq =>
        split at hs
        next er heq2 => exact Except.noConfusion hs
        next acc1 heq2 =>
          split at hs
          next er heq3 => exact Except.noConfusion hs
          next acc2 heq3 =>
            rw [heq, ← Except.ok.inj hs]
  | e1 :: e2 :: rest =>
    refine ⟨⟨fun _ => by simp, fun _ => rfl⟩, fun e he => ?_⟩
    have h2 : e2 :: rest = [] := (List.cons.inj he).2
    exact List.noConfusion h2

/-- Witness for C9: a unit with zero entry points fails with
`multipleEntryPoints`; a unit with one fragment entry point classifies with
stage Fragment. -/
theorem C9_witness :
    Shader.fromReflection r9zero = .error .multipleEntryPoints ∧
    ShaderType.ofStage Stage.fragment = .ok ShaderType.Fragment :=
  ⟨(C9_entry_point_gate r9zero).1.mpr (by decide),
   (C9_entry_point_gate r9one).2 ⟨.fragment, []⟩ rfl sh9 (by decide)⟩

/-- A max-fold over uniform sets grows the initial accumulator. -/
theorem le_foldl_max : ∀ (l : List Uniform) (a : Nat),
    a ≤ l.foldl (fun m u => max m u.set) a
  | [], a => Nat.le_refl a
  | u :: us, a => Nat.le_trans (Nat.le_max_left a u.set) (le_foldl_max us _)

/-- Every uniform's set is bounded by the max-fold. -/
theorem set_le_foldl_max : ∀ (l : List Uniform) (a : Nat) (u : Uniform), u ∈ l →
    u.set ≤ l.foldl (fun m u => max m u.set) a
  | u' :: us, a, u, h => by
    cases h with
    | head => exact Nat.le_trans (Nat.le_max_right a u'.set) (le_foldl_max us _)
    | tail _ h' => exact set_le_foldl_max us _ u h'

/-- Every uniform's set is bounded by the shader's descriptor max. -/
theorem set_le_descriptor_max (s : Shader) (u : Uniform) (h : u ∈ s.uniforms) :
    u.set ≤ s.get_descriptor_max :=
  set_le_foldl_max s.uniforms 0 u h

/-- The bind-method fill loop succeeds and preserves length when every
uniform's set is in bounds. -/
theorem fillBindMethods_ok : ∀ (us : List Uniform) (ms : List BindMethod),
    (∀ u ∈ us, u.set < ms.length) →
    ∃ ms', fillBindMethods us ms = some ms' ∧ ms'.length = ms.length
  | [], ms, _ => ⟨ms, rfl, rfl⟩
  | u :: us, ms, h => by
    have hu : u.set < ms.length := h u (List.mem_cons_self u us)
    obtain ⟨ms', h1, h2⟩ := fillBindMethods_ok us
      (ms.set u.set ⟨(ms.get ⟨u.set, hu⟩).uniforms ++ [u]⟩)
      (by
        intro v hv
        rw [List.length_set]
        exact h v (List.mem_cons_of_mem _ hv))
    refine ⟨ms', ?_, by rw [h2, List.length_set]⟩
    rw [fillBindMethods]
    have hstep : bindMethodPush ms u =
        some (ms.set u.set ⟨(ms.get ⟨u.set, hu⟩).uniforms ++ [u]⟩) := by
      rw [bindMethodPush, dif_pos hu]
    rw [hstep]
    exact h1

/-- The shader conversion loop succeeds when each conversion does. -/
theorem mapShaders_ok : ∀ (rs : List ShaderReflection),
    (∀ r ∈ rs, ∃ s, Shader.fromReflection r = .ok s) →
    ∃ ss, mapShaders rs = .ok ss
  | [], _ => ⟨[], rfl⟩
  | r :: rs, h => by
    obtain ⟨s, hs⟩ := h r (List.mem_cons_self r rs)
    obtain ⟨ss, hss⟩ := mapShaders_ok rs (fun r' hr' => h r' (List.mem_cons_of_mem _ hr'))
    exact ⟨s :: ss, by rw [mapShaders, hs, hss]⟩

/-- Claim C10: the builder accepts any non-empty (classifiable) shader list,
but the derived queries — set layouts, set-layout bindings, bind methods and
push ranges — unconditionally access both the first and the second shader:
each is defined exactly on pipelines with at least two stages. -/
theorem C10_two_stage_totality :
    (∀ p : Pipeline,
      ((p.get_set_layouts).isSome ↔ 2 ≤ p.shaders.length) ∧
      (∀ set, (p.get_set_layout_bindings set).isSome ↔ 2 ≤ p.shaders.length) ∧
      ((p.get_bind_methods).isSome ↔ 2 ≤ p.shaders.length) ∧
      ((p.get_push_ranges).isSome ↔ 2 ≤ p.shaders.length)) ∧
    (∀ b : PipelineBuilder, b.name ≠ "" → b.shaders ≠ [] →
      (∀ r ∈ b.shaders, ∃ s, Shader.fromReflection r = .ok s) →
      ∃ q, b.build = .ok q) := by
  constructor
  · intro p
    obtain ⟨name, shaders⟩ := p
    match shaders with
    | [] =>
      refine ⟨by simp [Pipeline.get_set_layouts], fun set => by
          simp [Pipeline.get_set_layout_bindings],
        by simp [Pipeline.get_bind_methods], by simp [Pipeline.get_push_ranges]⟩
    | [s0] =>
      refine ⟨by simp [Pipeline.get_set_layouts], fun set => by
          simp [Pipeline.get_set_layout_bindings],
        by simp [Pipeline.get_bind_methods], by simp [Pipeline.get_push_ranges]⟩
    | vert :: frag :: rest =>
      have hlen : 2 ≤ (Pipeline.mk name (vert :: frag :: rest)).shaders.length := by
        simp
      have h1 : (Pipeline.mk name (vert :: frag :: rest)).get_set_layouts.isSome = true := by
        simp only [Pipeline.get_set_layouts]
        split
        · rfl
        · rfl
      have h2 : ∀ set,
          ((Pipeline.mk name (vert :: frag :: rest)).get_set_layout_bindings set).isSome = true :=
        fun _ => rfl
      have h3 : (Pipeline.mk name (vert :: frag :: rest)).get_bind_methods.isSome = true := by
        simp only [Pipeline.get_bind_methods]
        split
        · rfl
        · obtain ⟨ms1, hm1, hl1⟩ := fillBindMethods_ok vert.uniforms
            (List.replicate (max vert.get_descriptor_max frag.get_descriptor_max + 1) ⟨[]⟩)
            (by
              intro u hu
              rw [List.length_replicate]
              have := set_le_descriptor_max vert u hu
              omega)
          rw [hm1]
          obtain ⟨ms2, hm2, hl2⟩ := fillBindMethods_ok frag.uniforms ms1 (by
            intro u hu
            rw [hl1, List.length_replicate]
            have := set_le_descriptor_max frag u hu
            omega)
          show (fillBindMethods frag.uniforms ms1).isSome = true
          rw [hm2]
          rfl
      have h4 : (Pipeline.mk name (vert :: frag :: rest)).get_push_ranges.isSome = true := rfl
      exact ⟨⟨fun _ => hlen, fun _ => h1⟩, fun set => ⟨fun _ => hlen, fun _ => h2 set⟩,
        ⟨fun _ => hlen, fun _ => h3⟩, ⟨fun _ => hlen, fun _ => h4⟩⟩
  · intro b hname hshaders hok
    obtain ⟨ss, hss⟩ := mapShaders_ok b.shaders hok
    refine ⟨⟨b.name, ss⟩, ?_⟩
    rw [PipelineBuilder.build, if_neg hname,
      if_neg (fun hx => hshaders (List.isEmpty_iff.mp hx))]
    cases hb : b.shaders with
    | nil => exact absurd hb hshaders
    | cons r rs =>
      rw [hb] at hss
      rw [Pipeline.new, hss]
      exact fun hx => List.noConfusion hx

/-- Witness for C10: the one-stage pipeline fails all four queries while the
one-reflection builder builds successfully. -/
theorem C10_witness :
    p10Ex.get_set_layouts = none ∧
    p10Ex.get_set_layout_bindings 0 = none ∧
    p10Ex.get_bind_methods = none ∧
    p10Ex.get_push_ranges = none ∧
    ∃ q, b10Ex.build = .ok q := by
  have hp := (C10_two_stage_totality).1 p10Ex
  have hlen : ¬ (2 ≤ p10Ex.shaders.length) := by decide
  refine ⟨?_, ?_, ?_, ?_, ?_⟩
  · cases hx : p10Ex.get_set_layouts with
    | none => rfl
    | some v => exact absurd (hp.1.mp (by rw [hx]; rfl)) hlen
  · cases hx : p10Ex.get_set_layout_bindings 0 with
    | none => rfl
    | some v => exact absurd ((hp.2.1 0).mp (by rw [hx]; rfl)) hlen
  · cases hx : p10Ex.get_bind_methods with
    | none => rfl
    | some v => exact absurd (hp.2.2.1.mp (by rw [hx]; rfl)) hlen
  · cases hx : p10Ex.get_push_ranges with
    | none => rfl
    | some v => exact absurd (hp.2.2.2.mp (by rw [hx]; rfl)) hlen
  · refine (C10_two_stage_totality).2 b10Ex (by decide) (by
      intro hx
      exact List.noConfusion hx) ?_
    intro r hr
    rw [show b10Ex.shaders = [r9one] from rfl, List.mem_singleton] at hr
    subst hr
    exact ⟨sh9, by decide⟩

/-- Filtering by an exact binding key commutes with ordered insertion: no
element with the same key is ever jumped over. -/
theorem filter_binding_orderedInsert (c : Nat) (a : Uniform) : ∀ (l : List Uniform),
    (List.orderedInsert bindingLE a l).filter (fun u => decide (u.binding = c)) =
      if a.binding = c then a :: l.filter (fun u => decide (u.binding = c))
      else l.filter (fun u => decide (u.binding = c))
  | [] => by
    by_cases hc : a.binding = c <;>
      simp [List.orderedInsert, hc]
  | b :: l => by
    by_cases hr : bindingLE a b
    · rw [List.orderedInsert, if_pos hr]
      by_cases hc : a.binding = c <;> simp [List.filter_cons, hc]
    · rw [List.orderedInsert, if_neg hr]
      have hblt : b.binding < a.binding := Nat.lt_of_not_le hr
      rw [List.filter_cons, filter_binding_orderedInsert c a l]
      by_cases hbc : b.binding = c
      · have hac : a.binding ≠ c := by omega
        simp [List.filter_cons, hbc, hac]
      · by_cases hc : a.binding = c <;> simp [List.filter_cons, hbc, hc]

/-- Stability of the sort: filtering by an exact binding key commutes with the
stable sort (ties keep their input order). -/
theorem filter_binding_sortUniforms (c : Nat) : ∀ (l : List Uniform),
    (sortUniforms l).filter (fun u => decide (u.binding = c)) =
      l.filter (fun u => decide (u.binding = c))
  | [] => rfl
  | a :: l => by
    show (List.orderedInsert bindingLE a (List.insertionSort bindingLE l)).filter _ = _
    rw [filter_binding_orderedInsert c a (List.insertionSort bindingLE l)]
    have ih := filter_binding_sortUniforms c l
    rw [show List.insertionSort bindingLE l = sortUniforms l from rfl, ih]
    by_cases hc : a.binding = c
    · rw [if_pos hc, List.filter_cons, if_pos (by simp [hc])]
    · rw [if_neg hc, List.filter_cons, if_neg (by simp [hc])]

/-- Uniqueness of the stable sort's output: two binding-sorted lists with the
same per-key sublists are equal. -/
theorem sorted_key_unique : ∀ (l₁ l₂ : List Uniform),
    List.Sorted bindingLE l₁ → List.Sorted bindingLE l₂ →
    (∀ c, l₁.filter (fun u => decide (u.binding = c)) =
      l₂.filter (fun u => decide (u.binding = c))) →
    l₁ = l₂
  | [], [], _, _, _ => rfl
  | [], b :: t₂, _, _, h => by
    have hb := h b.binding
    rw [List.filter_nil, List.filter_cons, if_pos (by simp)] at hb
    exact List.noConfusion hb
  | a :: t₁, [], _, _, h => by
    have ha := h a.binding
    rw [List.filter_nil, List.filter_cons, if_pos (by simp)] at ha
    exact List.noConfusion ha
  | a :: t₁, b :: t₂, h₁, h₂, h => by
    have hmem_a : a ∈ b :: t₂ := by
      have hx : a ∈ (b :: t₂).filter (fun u => decide (u.binding = a.binding)) := by
        rw [← h a.binding, List.filter_cons, if_pos (by simp)]
        exact List.mem_cons_self _ _
      exact (List.mem_filter.mp hx).1
    have hmem_b : b ∈ a :: t₁ := by
      have hx : b ∈ (a :: t₁).filter (fun u => decide (u.binding = b.binding)) := by
        rw [h b.binding, List.filter_cons, if_pos (by simp)]
        exact List.mem_cons_self _ _
      exact (List.mem_filter.mp hx).1
    have hba : b.binding ≤ a.binding := by
      cases hmem_a with
      | head => exact Nat.le_refl _
      | tail _ hmem => exact List.rel_of_sorted_cons h₂ a hmem
    have hab : a.binding ≤ b.binding := by
      cases hmem_b with
      | head => exact Nat.le_refl _
      | tail _ hmem => exact List.rel_of_sorted_cons h₁ b hmem
    have hkey : a.binding = b.binding := Nat.le_antisymm hab hba
    have hhead := h a.binding
    rw [List.filter_cons, if_pos (by simp), List.filter_cons, if_pos (by simp [hkey])] at hhead
    have hae : a = b := (List.cons.inj hhead).1
    have htail_key : t₁.filter (fun u => decide (u.binding = a.binding)) =
        t₂.filter (fun u => decide (u.binding = a.binding)) := (List.cons.inj hhead).2
    have htails : ∀ c, t₁.filter (fun u => decide (u.binding = c)) =
        t₂.filter (fun u => decide (u.binding = c)) := by
      intro c
      by_cases hc : c = a.binding
      · rw [hc]
        exact htail_key
      · have hx := h c
        rw [List.filter_cons, if_neg (by simp; omega), List.filter_cons,
          if_neg (by simp [hkey]; omega)] at hx
        exact hx
    rw [hae, sorted_key_unique t₁ t₂ h₁.of_cons h₂.of_cons htails]

/-- The `samplerSafe` relation is symmetric. -/
theorem samplerSafe_symm : ∀ {a b : Uniform}, samplerSafe a b → samplerSafe b a := by
  intro a b h hor hcol
  exact h (Or.symm hor) ⟨hcol.1.symm, hcol.2.symm⟩

/-- A list without samplers is vacuously pairwise sampler-safe. -/
theorem pairwise_samplerSafe_of_no_samplers : ∀ (L : List Uniform),
    (∀ u ∈ L, u.isSampler = false) → List.Pairwise samplerSafe L
  | [], _ => List.Pairwise.nil
  | a :: L, h => by
    refine List.Pairwise.cons ?_
      (pairwise_samplerSafe_of_no_samplers L (fun u hu => h u (List.mem_cons_of_mem _ hu)))
    intro b hb hor
    cases hor with
    | inl ha =>
      rw [h a (List.mem_cons_self _ _)] at ha
      exact absurd ha (by simp)
    | inr hbs =>
      rw [h b (List.mem_cons_of_mem _ hb)] at hbs
      exact absurd hbs (by simp)

/-- The re-append loop only ever appends kept samplers at the end. -/
theorem mergeSamplers_shape : ∀ (S A : List Uniform),
    ∃ K, mergeSamplers A S = A ++ K ∧ ∀ u ∈ K, u ∈ S
  | [], A => ⟨[], by rw [mergeSamplers, List.append_nil], by simp⟩
  | s :: S, A => by
    rw [mergeSamplers]
    split
    · obtain ⟨K, h1, h2⟩ := mergeSamplers_shape S A
      exact ⟨K, h1, fun u hu => List.mem_cons_of_mem _ (h2 u hu)⟩
    · obtain ⟨K, h1, h2⟩ := mergeSamplers_shape S (A ++ [s])
      refine ⟨s :: K, ?_, ?_⟩
      · rw [h1, List.append_assoc]
        rfl
      · intro u hu
        cases hu with
        | head => exact List.mem_cons_self _ _
        | tail _ hu' => exact List.mem_cons_of_mem _ (h2 u hu')

/-- The re-append loop preserves the pairwise sampler-safety invariant. -/
theorem mergeSamplers_pairwise : ∀ (S A : List Uniform),
    List.Pairwise samplerSafe A → (∀ s ∈ S, s.isSampler = true) →
    List.Pairwise samplerSafe (mergeSamplers A S)
  | [], A, hA, _ => by
    rw [mergeSamplers]
    exact hA
  | s :: S, A, hA, hS => by
    rw [mergeSamplers]
    split
    · exact mergeSamplers_pairwise S A hA (fun x hx => hS x (List.mem_cons_of_mem _ hx))
    · next hany =>
      refine mergeSamplers_pairwise S (A ++ [s]) ?_
        (fun x hx => hS x (List.mem_cons_of_mem _ hx))
      rw [List.pairwise_append]
      refine ⟨hA, List.pairwise_singleton _ _, ?_⟩
      intro a ha b hb
      rw [List.mem_singleton] at hb
      subst hb
      intro _ hcol
      apply hany
      rw [List.any_eq_true]
      refine ⟨a, ha, ?_⟩
      simp [hcol.1, hcol.2]

/-- When nothing collides, the re-append loop keeps every sampler, in order. -/
theorem mergeSamplers_all : ∀ (S A : List Uniform),
    List.Pairwise (fun a b => ¬collides a b) S →
    (∀ s ∈ S, ∀ a ∈ A, ¬collides a s) →
    mergeSamplers A S = A ++ S
  | [], A, _, _ => by
    rw [mergeSamplers, List.append_nil]
  | s :: S, A, hS, hAS => by
    rw [mergeSamplers, if_neg ?hneg]
    case hneg =>
      intro hany
      rw [List.any_eq_true] at hany
      obtain ⟨a, ha, hcol⟩ := hany
      simp only [Bool.and_eq_true, decide_eq_true_eq] at hcol
      exact hAS s (List.mem_cons_self _ _) a ha ⟨hcol.1, hcol.2⟩
    rw [mergeSamplers_all S (A ++ [s]) hS.of_cons ?_]
    · rw [List.append_assoc]
      rfl
    · intro s' hs' a ha
      rcases List.mem_append.mp ha with haA | has
      · exact hAS s' (List.mem_cons_of_mem _ hs') a haA
      · rw [List.mem_singleton] at has
        subst has
        exact (List.pairwise_cons.mp hS).1 s' hs'

/-- Splitting a non-sampler block followed by a sampler block recovers the two
blocks. -/
theorem partition_append_filter (X Y : List Uniform)
    (hX : ∀ u ∈ X, u.isSampler = false) (hY : ∀ u ∈ Y, u.isSampler = true) :
    (X ++ Y).filter (fun u => !u.isSampler) = X ∧
    (X ++ Y).filter (fun u => u.isSampler) = Y := by
  constructor
  · rw [List.filter_append,
      List.filter_eq_self.mpr (fun u hu => by rw [hX u hu]; rfl),
      List.filter_eq_nil_iff.mpr (fun u hu => by rw [hY u hu]; simp),
      List.append_nil]
  · rw [List.filter_append,
      List.filter_eq_nil_iff.mpr (fun u hu => by rw [hX u hu]; simp),
      List.filter_eq_self.mpr (fun u hu => hY u hu),
      List.nil_append]

/-- Claim C5: the Binding Deduplicator is idempotent — applying the
partition/re-append/stable-sort algorithm to its own output returns the
identical list, with no further removals and no reordering. -/
theorem C5_dedupe_idempotent (l : List Uniform) :
    dedupeUniforms (dedupeUniforms l) = dedupeUniforms l := by
  have hSamplersS : ∀ s ∈ l.filter (fun u => u.isSampler), s.isSampler = true :=
    fun s hs => (List.mem_filter.mp hs).2
  have hOthersNoSamp : ∀ u ∈ l.filter (fun u => !u.isSampler), u.isSampler = false := by
    intro u hu
    have hx := (List.mem_filter.mp hu).2
    simpa using hx
  -- the first pass and its output
  have hPpair : List.Pairwise samplerSafe
      (mergeSamplers (l.filter (fun u => !u.isSampler)) (l.filter (fun u => u.isSampler))) :=
    mergeSamplers_pairwise _ _ (pairwise_samplerSafe_of_no_samplers _ hOthersNoSamp) hSamplersS
  have hperm : List.Perm (dedupeUniforms l)
      (mergeSamplers (l.filter (fun u => !u.isSampler)) (l.filter (fun u => u.isSampler))) :=
    List.perm_insertionSort bindingLE _
  have houtpair : List.Pairwise samplerSafe (dedupeUniforms l) :=
    (List.Perm.pairwise_iff (fun h => samplerSafe_symm h) hperm).mpr hPpair
  -- the second pass removes nothing
  have hS₂ : List.Pairwise (fun a b => ¬collides a b)
      ((dedupeUniforms l).filter (fun u => u.isSampler)) := by
    refine List.Pairwise.imp_of_mem ?_ (houtpair.filter (fun u => u.isSampler))
    intro a b ha hb hsafe
    exact hsafe (Or.inl (List.mem_filter.mp ha).2)
  have hAS₂ : ∀ s ∈ (dedupeUniforms l).filter (fun u => u.isSampler),
      ∀ a ∈ (dedupeUniforms l).filter (fun u => !u.isSampler), ¬collides a s := by
    intro s hs a ha
    have hsmem := List.mem_filter.mp hs
    have hamem := List.mem_filter.mp ha
    have hne : a ≠ s := by
      intro hx
      rw [hx] at hamem
      rw [hsmem.2] at hamem
      exact absurd hamem.2 (by simp)
    have hsafe := List.Pairwise.forall (fun x y h => samplerSafe_symm h) houtpair
      hamem.1 hsmem.1 hne
    exact hsafe (Or.inr hsmem.2)
  have hmerge2 : mergeSamplers ((dedupeUniforms l).filter (fun u => !u.isSampler))
      ((dedupeUniforms l).filter (fun u => u.isSampler)) =
      (dedupeUniforms l).filter (fun u => !u.isSampler) ++
        (dedupeUniforms l).filter (fun u => u.isSampler) :=
    mergeSamplers_all _ _ hS₂ hAS₂
  -- the shape of the first pass's pre-sort list
  obtain ⟨K, hK, hKmem⟩ := mergeSamplers_shape
    (l.filter (fun u => u.isSampler)) (l.filter (fun u => !u.isSampler))
  -- conclude by uniqueness of the sorted output
  show sortUniforms _ = dedupeUniforms l
  rw [hmerge2]
  apply sorted_key_unique
  · exact List.sorted_insertionSort bindingLE _
  · exact List.sorted_insertionSort bindingLE _
  · intro c
    rw [filter_binding_sortUniforms c]
    rw [List.filter_append]
    -- left side blocks, as filters of the sorted output
    have hcomm1 : ((dedupeUniforms l).filter (fun u => !u.isSampler)).filter
        (fun u => decide (u.binding = c)) =
        ((dedupeUniforms l).filter (fun u => decide (u.binding = c))).filter
          (fun u => !u.isSampler) := by
      rw [List.filter_filter, List.filter_filter]
      exact List.filter_congr (fun x _ => Bool.and_comm _ _)
    have hcomm2 : ((dedupeUniforms l).filter (fun u => u.isSampler)).filter
        (fun u => decide (u.binding = c)) =
        ((dedupeUniforms l).filter (fun u => decide (u.binding = c))).filter
          (fun u => u.isSampler) := by
      rw [List.filter_filter, List.filter_filter]
      exact List.filter_congr (fun x _ => Bool.and_comm _ _)
    rw [hcomm1, hcomm2]
    -- the sorted output's key class splits as non-samplers then samplers
    have hkeyclass : (dedupeUniforms l).filter (fun u => decide (u.binding = c)) =
        (l.filter (fun u => !u.isSampler)).filter (fun u => decide (u.binding = c)) ++
          K.filter (fun u => decide (u.binding = c)) := by
      show (sortUniforms _).filter _ = _
      rw [hK, filter_binding_sortUniforms c, List.filter_append]
    rw [hkeyclass]
    have hpart := partition_append_filter
      ((l.filter (fun u => !u.isSampler)).filter (fun u => decide (u.binding = c)))
      (K.filter (fun u => decide (u.binding = c)))
      (fun u hu => hOthersNoSamp u (List.mem_filter.mp hu).1)
      (fun u hu => hSamplersS u (hKmem u (List.mem_filter.mp hu).1))
    rw [hpart.1, hpart.2]

/-- Binding-key distinctness is a symmetric relation. -/
theorem binding_ne_symm : Symmetric (fun a b : Uniform => a.binding ≠ b.binding) :=
  fun _ _ hxy he => hxy he.symm

/-- Distinct binding keys make a uniform list pairwise binding-distinct. -/
theorem pairwise_binding_ne_of_nodup (l : List Uniform)
    (h : (l.map (fun u => u.binding)).Nodup) :
    List.Pairwise (fun a b : Uniform => a.binding ≠ b.binding) l := by
  rw [List.Nodup, List.pairwise_map] at h
  exact h

/-- The dedup partition, re-concatenated, is a permutation of the input. -/
theorem filter_partition_perm (l : List Uniform) :
    List.Perm (l.filter (fun u => !u.isSampler) ++ l.filter (fun u => u.isSampler)) l := by
  have h := List.filter_append_perm (fun u => !u.isSampler) l
  rw [show l.filter (fun x => !(!x.isSampler)) = l.filter (fun u => u.isSampler) from
    List.filter_congr (fun x _ => by rw [Bool.not_not])] at h
  exact h

/-- With pairwise-distinct binding keys nothing collides, so the deduplicator
is just the stable sort of the partitioned input. -/
theorem dedupe_eq_sort_of_nodup (l : List Uniform)
    (h : (l.map (fun u => u.binding)).Nodup) :
    dedupeUniforms l =
      sortUniforms (l.filter (fun u => !u.isSampler) ++ l.filter (fun u => u.isSampler)) := by
  have hpw := pairwise_binding_ne_of_nodup l h
  show sortUniforms _ = _
  rw [mergeSamplers_all _ _ ?hS ?hAS]
  case hS =>
    exact List.Pairwise.imp (fun hne hcol => hne hcol.2) (hpw.filter (fun u => u.isSampler))
  case hAS =>
    intro s hs a ha
    have hsmem := List.mem_filter.mp hs
    have hamem := List.mem_filter.mp ha
    have hne : a ≠ s := by
      intro hx
      rw [hx, hsmem.2] at hamem
      exact absurd hamem.2 (by simp)
    intro hcol
    exact (List.Pairwise.forall binding_ne_symm hpw hamem.1 hsmem.1 hne) hcol.2

/-- With pairwise-distinct binding keys, each key class has at most one
element. -/
theorem filter_key_length_le_one (l : List Uniform)
    (h : (l.map (fun u => u.binding)).Nodup) (c : Nat) :
    (l.filter (fun u => decide (u.binding = c))).length ≤ 1 := by
  have hpw := (pairwise_binding_ne_of_nodup l h).filter (fun u => decide (u.binding = c))
  rcases hF : l.filter (fun u => decide (u.binding = c)) with _ | ⟨x, _ | ⟨y, t⟩⟩
  · rw [hF]
    simp
  · rw [hF]
    simp
  · exfalso
    rw [hF] at hpw
    have hxy := (List.pairwise_cons.mp hpw).1 y (List.mem_cons_self _ _)
    have hx : x ∈ l.filter (fun u => decide (u.binding = c)) := by
      rw [hF]
      exact List.mem_cons_self _ _
    have hy : y ∈ l.filter (fun u => decide (u.binding = c)) := by
      rw [hF]
      exact List.mem_cons_of_mem _ (List.mem_cons_self _ _)
    have hxc := (List.mem_filter.mp hx).2
    have hyc := (List.mem_filter.mp hy).2
    simp only [decide_eq_true_eq] at hxc hyc
    exact hxy (hxc.trans hyc.symm)

/-- Permutations with pairwise-distinct binding keys have equal key classes. -/
theorem filter_key_eq_of_perm_nodup (X Y : List Uniform) (hperm : List.Perm X Y)
    (h : (X.map (fun u => u.binding)).Nodup) (c : Nat) :
    X.filter (fun u => decide (u.binding = c)) = Y.filter (fun u => decide (u.binding = c)) := by
  have hpf := hperm.filter (fun u => decide (u.binding = c))
  have hlX := filter_key_length_le_one X h c
  rcases hF : X.filter (fun u => decide (u.binding = c)) with _ | ⟨x, t⟩
  · rw [hF] at hpf ⊢
    exact hpf.nil_eq
  · rw [hF] at hpf hlX ⊢
    have ht : t = [] := by
      cases t with
      | nil => rfl
      | cons z zs => simp at hlX
    subst ht
    exact List.singleton_perm.mp hpf

/-- Claim C7 counterexample: for two distinct bindings sharing binding index 1
(a tie), the stable sort keeps input order, so the two permutations of the
same input produce different deduplicated outputs. -/
theorem C7_counterexample :
    List.Perm [uTieA, uTieB] [uTieB, uTieA] ∧
    dedupeUniforms [uTieA, uTieB] = [uTieA, uTieB] ∧
    dedupeUniforms [uTieB, uTieA] = [uTieB, uTieA] ∧
    [uTieA, uTieB] ≠ [uTieB, uTieA] :=
  ⟨List.Perm.swap uTieB uTieA [], by decide, by decide, by decide⟩

/-- Claim C7 (amended): the deduplicated output is always ordered ascending by
binding within each set; and the output is identical across input permutations
whenever the binding indexes are pairwise distinct (with duplicate binding
keys, stable-sort ties keep input order, so permutation invariance fails). -/
theorem C7_amended :
    (∀ (l : List Uniform) (set : Nat),
      List.Sorted bindingLE ((dedupeUniforms l).filter (fun u => decide (u.set = set)))) ∧
    (∀ (l l' : List Uniform), List.Perm l l' →
      (l.map (fun u => u.binding)).Nodup →
      dedupeUniforms l = dedupeUniforms l') := by
  constructor
  · intro l set
    exact (List.sorted_insertionSort bindingLE _).filter _
  · intro l l' hperm hnodup
    have hnodup' : (l'.map (fun u => u.binding)).Nodup := ((hperm.map _).nodup_iff).mp hnodup
    rw [dedupe_eq_sort_of_nodup l hnodup, dedupe_eq_sort_of_nodup l' hnodup']
    apply sorted_key_unique _ _ (List.sorted_insertionSort _ _) (List.sorted_insertionSort _ _)
    intro c
    have hX := filter_partition_perm l
    have hY := filter_partition_perm l'
    have hXn : ((l.filter (fun u => !u.isSampler) ++ l.filter (fun u => u.isSampler)).map
        (fun u => u.binding)).Nodup := ((hX.map _).nodup_iff).mpr hnodup
    exact (filter_binding_sortUniforms c _).trans
      ((filter_key_eq_of_perm_nodup _ _ (hX.trans (hperm.trans hY.symm)) hXn c).trans
        (filter_binding_sortUniforms c _).symm)

/-- Witness for C7: swapping two bindings with distinct binding indexes leaves
the deduplicated output unchanged. -/
theorem C7_witness :
    dedupeUniforms [uDistinctA, uDistinctB] = dedupeUniforms [uDistinctB, uDistinctA] :=
  C7_amended.2 [uDistinctA, uDistinctB] [uDistinctB, uDistinctA]
    (List.Perm.swap uDistinctB uDistinctA []) (by decide)

/-- A successfully classified shader has binding-sorted uniforms (the
deduplicator ends in the stable sort). -/
theorem fromReflection_uniforms_sorted (r : ShaderReflection) (s : Shader)
    (h : Shader.fromReflection r = .ok s) : List.Sorted bindingLE s.uniforms := by
  obtain ⟨path, eps, params⟩ := r
  match eps with
  | [] => exact Except.noConfusion h
  | [e] =>
    simp only [Shader.fromReflection] at h
    split at h
    next => exact Except.noConfusion h
    next ty heq =>
      split at h
      next => exact Except.noConfusion h
      next acc1 heq2 =>
        split at h
        next => exact Except.noConfusion h
        next acc2 heq3 =>
          rw [← Except.ok.inj h]
          exact List.sorted_insertionSort bindingLE _
  | e1 :: e2 :: rest => exact Except.noConfusion h

/-- Every shader of a converted reflection list has binding-sorted uniforms. -/
theorem mapShaders_sorted : ∀ (rs : List ShaderReflection) (ss : List Shader),
    mapShaders rs = .ok ss → ∀ s ∈ ss, List.Sorted bindingLE s.uniforms
  | [], ss, h => by
    intro s hs
    rw [← Except.ok.inj h] at hs
    cases hs
  | r :: rs, ss, h => by
    rw [mapShaders] at h
    split at h
    next => exact Except.noConfusion h
    next s0 heq =>
      split at h
      next => exact Except.noConfusion h
      next ss0 heq2 =>
        intro s hs
        rw [← Except.ok.inj h] at hs
        cases hs with
        | head => exact fromReflection_uniforms_sorted r s0 heq
        | tail _ htl => exact mapShaders_sorted rs ss0 heq2 s htl

/-- A built pipeline's shader list is the converted reflection list. -/
theorem pipelineNew_shaders (name : String) (rs : List ShaderReflection) (p : Pipeline)
    (h : Pipeline.new name rs = .ok p) : mapShaders rs = .ok p.shaders := by
  cases rs with
  | nil => exact Except.noConfusion h
  | cons r rs' =>
    have h' : (match mapShaders (r :: rs') with
        | Except.error e => (Except.error e : Except ModelError Pipeline)
        | Except.ok shaders => Except.ok ⟨name, shaders⟩) = Except.ok p := h
    split at h'
    next => exact Except.noConfusion h'
    next ss heq =>
      rw [← Except.ok.inj h']
      exact heq

/-- A shader's per-set layout bindings inherit the uniform order. -/
theorem shader_bindings_sorted (s : Shader) (hs : List.Sorted bindingLE s.uniforms) (set : Nat) :
    List.Sorted slbLE (s.get_set_layout_bindings set) := by
  rw [Shader.get_set_layout_bindings]
  refine List.Pairwise.map _ ?_ (hs.filter _)
  intro a b hab
  exact hab

/-- Claim C2 counterexample: a pipeline whose vertex stage has binding 2 at
set 0 and whose fragment stage has binding 1 at set 0 produces a set-0 layout
whose bindings list is [2, 1] — not ordered ascending by binding: no ordering
step is applied to the concatenation. -/
theorem C2_counterexample :
    Pipeline.new ("Pipe2") [rV2, rF2] = .ok pEx2 ∧
    pEx2.get_set_layouts = some [⟨[⟨.Vertex, .Uniform, 2⟩, ⟨.Fragment, .Uniform, 1⟩]⟩] ∧
    ¬ List.Sorted slbLE [(⟨.Vertex, .Uniform, 2⟩ : SetLayoutBinding), ⟨.Fragment, .Uniform, 1⟩] :=
  ⟨by decide, by decide, by decide⟩

/-- Claim C2 (amended): for every built pipeline and set index, the set's
bindings list is the vertex stage's matching bindings followed by the fragment
stage's matching bindings; each stage's sub-list is ordered ascending by
binding (the deduplicator sorted each shader at construction), but the
concatenation is not re-sorted. -/
theorem C2_amended (name : String) (rs : List ShaderReflection) (p : Pipeline)
    (vert frag : Shader) (rest : List Shader)
    (hp : Pipeline.new name rs = .ok p) (hsh : p.shaders = vert :: frag :: rest) :
    (∀ set, p.get_set_layout_bindings set =
        some (vert.get_set_layout_bindings set ++ frag.get_set_layout_bindings set)) ∧
    (∀ set, List.Sorted slbLE (vert.get_set_layout_bindings set)) ∧
    (∀ set, List.Sorted slbLE (frag.get_set_layout_bindings set)) ∧
    (∀ layouts, p.get_set_layouts = some layouts →
      ∀ i (hi : i < layouts.length),
        (layouts.get ⟨i, hi⟩).bindings =
          vert.get_set_layout_bindings i ++ frag.get_set_layout_bindings i) := by
  have hms := pipelineNew_shaders name rs p hp
  rw [hsh] at hms
  have hsorted := mapShaders_sorted rs _ hms
  have hvs : List.Sorted bindingLE vert.uniforms := hsorted vert (List.mem_cons_self _ _)
  have hfs : List.Sorted bindingLE frag.uniforms :=
    hsorted frag (List.mem_cons_of_mem _ (List.mem_cons_self _ _))
  refine ⟨?_, fun set => shader_bindings_sorted vert hvs set,
    fun set => shader_bindings_sorted frag hfs set, ?_⟩
  · intro set
    rw [Pipeline.get_set_layout_bindings, hsh]
  · intro layouts hl i hi
    rw [Pipeline.get_set_layouts, hsh] at hl
    replace hl : (if vert.uniforms = [] ∧ frag.uniforms = [] then some []
        else some ((List.range (max vert.get_descriptor_max frag.get_descriptor_max + 1)).map
          (fun set => (⟨vert.get_set_layout_bindings set ++ frag.get_set_layout_bindings set⟩ :
            SetLayout)))) = some layouts := hl
    split at hl
    next hcond =>
      have hnil : [] = layouts := Option.some.inj hl
      subst hnil
      exact absurd hi (by simp)
    next hcond =>
      have hlay : (List.range (max vert.get_descriptor_max frag.get_descriptor_max + 1)).map
          (fun set => (⟨vert.get_set_layout_bindings set ++
            frag.get_set_layout_bindings set⟩ : SetLayout)) = layouts := Option.some.inj hl
      subst hlay
      simp [List.get_eq_getElem, List.getElem_map, List.getElem_range]

/-- Witness for C2: the counterexample pipeline's set-0 bindings decompose as
the vertex part followed by the fragment part. -/
theorem C2_witness :
    pEx2.get_set_layout_bindings 0 =
      some (shV2.get_set_layout_bindings 0 ++ shF2.get_set_layout_bindings 0) :=
  (C2_amended ("Pipe2") [rV2, rF2] pEx2 shV2 shF2 [] (by decide) (by decide)).1 0

/-- The emission guard: a bind method's tokens are refused exactly when it has
zero uniforms. -/
theorem to_tokens_none_iff (m : BindMethod) : m.to_tokens = none ↔ m.uniforms = [] := by
  obtain ⟨us⟩ := m
  cases us with
  | nil => exact ⟨fun _ => rfl, fun _ => rfl⟩
  | cons u us' =>
    constructor
    · intro h
      exact Option.noConfusion h
    · intro h
      exact List.noConfusion h

/-- Characterization of the bind-method fill loop: each slot collects, in
order, the uniforms whose set equals its index. -/
theorem fillBindMethods_get : ∀ (us : List Uniform) (ms ms' : List BindMethod),
    fillBindMethods us ms = some ms' →
    ms'.length = ms.length ∧
    ∀ i (hi : i < ms'.length) (hm : i < ms.length),
      (ms'.get ⟨i, hi⟩).uniforms =
        (ms.get ⟨i, hm⟩).uniforms ++ us.filter (fun u => decide (u.set = i))
  | [], ms, ms', h => by
    have hms : ms = ms' := Option.some.inj h
    subst hms
    refine ⟨rfl, ?_⟩
    intro i hi hm
    rw [List.filter_nil, List.append_nil]
  | u :: us, ms, ms', h => by
    rw [fillBindMethods] at h
    split at h
    next => exact Option.noConfusion h
    next ms1 heq =>
      rw [bindMethodPush] at heq
      split at heq
      next hlt =>
        have hms1 : ms1 = ms.set u.set ⟨(ms.get ⟨u.set, hlt⟩).uniforms ++ [u]⟩ :=
          (Option.some.inj heq).symm
        subst hms1
        obtain ⟨hlen, hget⟩ := fillBindMethods_get us _ ms' h
        rw [List.length_set] at hlen
        refine ⟨hlen, ?_⟩
        intro i hi hm
        have hm1 : i < (ms.set u.set ⟨(ms.get ⟨u.set, hlt⟩).uniforms ++ [u]⟩).length := by
          rw [List.length_set]
          exact hm
        rw [hget i hi hm1]
        simp only [List.get_eq_getElem, List.getElem_set]
        by_cases hiu : u.set = i
        · rw [if_pos hiu, List.filter_cons, if_pos (by simp [hiu])]
          subst hiu
          rw [List.append_assoc]
          rfl
        · rw [if_neg hiu, List.filter_cons, if_neg (by simp [hiu])]
      next => exact Option.noConfusion heq

/-- Claim C3 counterexample: a pipeline whose only binding lives at set 1
leaves a gap at set 0, and set 0 appears in both the set layouts and the bind
methods with an empty list — no error is raised while building them. -/
theorem C3_counterexample :
    Pipeline.new ("Pipe3") [rV3, rF3] = .ok p3Ex ∧
    p3Ex.get_set_layouts = some L3 ∧
    (L3.get ⟨0, by decide⟩).bindings = [] ∧
    p3Ex.get_bind_methods = some M3 ∧
    (M3.get ⟨0, by decide⟩).uniforms = [] :=
  ⟨by decide, by decide, by decide, by decide, by decide⟩

/-- Claim C3 (amended): emitting the bind operation of a set with zero
bindings is a defined failure — the generator's guard refuses exactly the set
indexes whose `SetLayout` has an empty bindings list; however, such gap set
indexes DO appear in the `setLayouts()` and bind-method results (the error
fires only at emission). -/
theorem C3_amended (p : Pipeline) (layouts : List SetLayout) (methods : List BindMethod)
    (hl : p.get_set_layouts = some layouts) (hm : p.get_bind_methods = some methods) :
    layouts.length = methods.length ∧
    ∀ i (hi : i < methods.length) (hli : i < layouts.length),
      ((methods.get ⟨i, hi⟩).to_tokens = none ↔ (layouts.get ⟨i, hli⟩).bindings = []) := by
  obtain ⟨name, shaders⟩ := p
  match shaders with
  | [] => exact Option.noConfusion hl
  | [s0] => exact Option.noConfusion hl
  | vert :: frag :: rest =>
    replace hl : (if vert.uniforms = [] ∧ frag.uniforms = [] then some []
        else some ((List.range (max vert.get_descriptor_max frag.get_descriptor_max + 1)).map
          (fun set => (⟨vert.get_set_layout_bindings set ++ frag.get_set_layout_bindings set⟩ :
            SetLayout)))) = some layouts := hl
    replace hm : (if vert.uniforms = [] ∧ frag.uniforms = [] then some []
        else
          match fillBindMethods vert.uniforms
            (List.replicate (max vert.get_descriptor_max frag.get_descriptor_max + 1)
              ⟨[]⟩) with
          | none => none
          | some methods0 => fillBindMethods frag.uniforms methods0) = some methods := hm
    split at hl
    next hcond =>
      rw [if_pos hcond] at hm
      have h1 : [] = layouts := Option.some.inj hl
      have h2 : [] = methods := Option.some.inj hm
      subst h1
      subst h2
      refine ⟨rfl, ?_⟩
      intro i hi
      exact absurd hi (by simp)
    next hcond =>
      rw [if_neg hcond] at hm
      have hlay := Option.some.inj hl
      subst hlay
      revert hm
      cases hfill1 : fillBindMethods vert.uniforms
          (List.replicate (max vert.get_descriptor_max frag.get_descriptor_max + 1) ⟨[]⟩) with
      | none => intro hm; exact Option.noConfusion hm
      | some ms1 =>
        intro hm
        obtain ⟨hlen1, hget1⟩ := fillBindMethods_get _ _ _ hfill1
        obtain ⟨hlen2, hget2⟩ := fillBindMethods_get _ _ _ hm
        rw [List.length_replicate] at hlen1
        constructor
        · rw [List.length_map, List.length_range, hlen2, hlen1]
        · intro i hi hli
          have hims1 : i < ms1.length := by
            rw [← hlen2]
            exact hi
          have hirep : i < (List.replicate
              (max vert.get_descriptor_max frag.get_descriptor_max + 1)
              (BindMethod.mk [])).length := by
            rw [List.length_replicate, ← hlen1]
            exact hims1
          have hu2 := hget2 i hi hims1
          have hu1 := hget1 i hims1 hirep
          rw [hu1] at hu2
          rw [to_tokens_none_iff, hu2]
          have hrep : ((List.replicate
              (max vert.get_descriptor_max frag.get_descriptor_max + 1)
              (BindMethod.mk [])).get ⟨i, hirep⟩).uniforms = [] := by
            simp [List.get_eq_getElem, List.getElem_replicate]
          rw [hrep, List.nil_append]
          have hbind : ((((List.range
              (max vert.get_descriptor_max frag.get_descriptor_max + 1)).map
              (fun set => (⟨vert.get_set_layout_bindings set ++
                frag.get_set_layout_bindings set⟩ : SetLayout))).get ⟨i, hli⟩).bindings) =
              vert.get_set_layout_bindings i ++ frag.get_set_layout_bindings i := by
            simp [List.get_eq_getElem, List.getElem_map, List.getElem_range]
          rw [hbind]
          rw [Shader.get_set_layout_bindings, Shader.get_set_layout_bindings]
          constructor
          · intro hx
            have hx2 := List.append_eq_nil.mp hx
            rw [hx2.1, hx2.2, List.map_nil, List.map_nil, List.append_nil]
          · intro hx
            have hx2 := List.append_eq_nil.mp hx
            rw [List.map_eq_nil_iff.mp hx2.1, List.map_eq_nil_iff.mp hx2.2, List.append_nil]

/-- Witness for C3: emitting the empty bind method fails. -/
theorem C3_witness : BindMethod.to_tokens (⟨[]⟩ : BindMethod) = none :=
  ((C3_amended p3Ex L3 M3 (by decide) (by decide)).2 0 (by decide) (by decide)).mpr (by decide)

end RaycaPipe
